import Mathlib

/-!
Verification of the CryptoVault wallet key-management core.

JavaScript strings are modelled as lists of UTF-16 code units (naturals).
The functions below are shallow embeddings of the functions in
src/core/wallet.ts (bundled in src/src/navigation/AppNavigator.tsx) and of
the unlock screen logic (UnlockScreen.tsx).
-/

namespace CryptoVault

/-- A JavaScript string, as its list of UTF-16 code units. -/
abbrev JSString := List Nat

/-! ### Base64 (Buffer toString base64 / Buffer.from base64)

Node Buffer base64 encoding of a byte list, and its decoder on the
well-formed padded output that the encoder produces. -/

/-- The base64 alphabet: digit value to character code. -/
def b64Char (n : Nat) : Nat :=
  if n < 26 then 65 + n
  else if n < 52 then 97 + (n - 26)
  else if n < 62 then 48 + (n - 52)
  else if n = 62 then 43
  else 47

/-- Character code back to base64 digit value. -/
def b64Val (c : Nat) : Nat :=
  if 65 ≤ c ∧ c ≤ 90 then c - 65
  else if 97 ≤ c ∧ c ≤ 122 then c - 97 + 26
  else if 48 ≤ c ∧ c ≤ 57 then c - 48 + 52
  else if c = 43 then 62
  else if c = 47 then 63
  else 0

/-- Base64-encode a byte list, with padding (code 61 is the pad character). -/
def b64Encode : List Nat → List Nat
  | a :: b :: c :: rest =>
      b64Char (a / 4) :: b64Char ((a % 4) * 16 + b / 16) ::
      b64Char ((b % 16) * 4 + c / 64) :: b64Char (c % 64) :: b64Encode rest
  | [a, b] =>
      [b64Char (a / 4), b64Char ((a % 4) * 16 + b / 16), b64Char ((b % 16) * 4), 61]
  | [a] =>
      [b64Char (a / 4), b64Char ((a % 4) * 16), 61, 61]
  | [] => []

/-- Base64-decode a padded base64 string back to its byte list. -/
def b64Decode : List Nat → List Nat
  | c1 :: c2 :: c3 :: c4 :: rest =>
      if c3 = 61 then
        [b64Val c1 * 4 + b64Val c2 / 16]
      else if c4 = 61 then
        [b64Val c1 * 4 + b64Val c2 / 16, (b64Val c2 % 16) * 16 + b64Val c3 / 4]
      else
        (b64Val c1 * 4 + b64Val c2 / 16) :: ((b64Val c2 % 16) * 16 + b64Val c3 / 4) ::
        ((b64Val c3 % 4) * 64 + b64Val c4) :: b64Decode rest
  | _ => []

/-! ### The XOR cipher of wallet.ts -/

/-- JavaScript string repetition: s repeated k times. -/
def strRepeat (s : JSString) : Nat → JSString
  | 0 => []
  | k + 1 => s ++ strRepeat s k

/-- The key stream of encryptWithPin / decryptWithPin:
pin.repeat(Math.ceil(n / pin.length)).slice(0, n). -/
def repeatKey (pin : JSString) (n : Nat) : JSString :=
  (strRepeat pin ((n + pin.length - 1) / pin.length)).take n

/-- encryptWithPin(text, pin): XOR each code unit of text with the repeated
PIN, then base64 the resulting bytes (Buffer binary encoding keeps only the
low byte of each code unit, hence the mod 256). -/
def encryptWithPin (text pin : JSString) : JSString :=
  b64Encode (((List.zipWith (fun t k => t ^^^ k) text (repeatKey pin text.length)).map
    (fun c => c % 256)))

/-- decryptWithPin(encoded, pin): base64-decode, then XOR with the repeated
PIN. Total: it never fails, whatever the PIN. -/
def decryptWithPin (encoded pin : JSString) : JSString :=
  let text := b64Decode encoded
  List.zipWith (fun t k => t ^^^ k) text (repeatKey pin text.length)

/-! ### Errors thrown by the wallet core -/

/-- The exceptions the wallet core can throw. -/
inductive VaultError where
  /-- The message: No wallet stored on this device. -/
  | noWalletStored
  /-- The message: Invalid mnemonic phrase. -/
  | invalidMnemonic
  /-- Thrown by the ethers Wallet constructor on a malformed private key. -/
  | invalidPrivateKey
deriving DecidableEq

/-! ### The ethers library surface used by wallet.ts

The ethers library is an external collaborator: HD derivation and
address computation are opaque deterministic functions, bundled here so
every theorem quantifies over an arbitrary such model. An HDNodeWallet
built at a path from a phrase has a private key; its address, like the
address of a Wallet built from a private key, is a function of that
private key alone (one secp256k1 keypair, one EIP-55 address). -/

structure EthersModel where
  /-- fromPhrase(phrase, undefined, path): the private key of the HD node. -/
  hdPrivateKey : String → JSString → JSString
  /-- The EIP-55 address of a private key. -/
  addressOfPrivateKey : JSString → JSString

/-- The address field of an HDNodeWallet: the address of its private key. -/
def hdNodeAddress (E : EthersModel) (path : String) (phrase : JSString) : JSString :=
  E.addressOfPrivateKey (E.hdPrivateKey path phrase)

/-! ### Wallet metadata and persisted state -/

/-- WalletMeta of wallet.ts: non-sensitive record kept in EncryptedStorage. -/
structure WalletMeta where
  address : JSString
  createdAt : Nat
  backupVerified : Bool
deriving DecidableEq

/-- The two persisted entries of the wallet core: the Keychain entry under
MNEMONIC_SERVICE (the PIN-encrypted, base64-encoded mnemonic blob) and the
EncryptedStorage entry under WALLET_META_KEY. -/
structure VaultState where
  keychainMnemonic : Option JSString
  walletMeta : Option WalletMeta
deriving DecidableEq

/-- BIP-44 derivation path used for every EVM chain:
the string m/44\x27/60\x27/0\x27/0/0. -/
def DERIVATION_PATH : String := "m/44\x27/60\x27/0\x27/0/0"

/-- deriveAddress(mnemonic): address of the HD node at DERIVATION_PATH. -/
def deriveAddress (E : EthersModel) (mnemonic : JSString) : JSString :=
  hdNodeAddress E DERIVATION_PATH mnemonic

/-- saveMnemonic(mnemonic, pin): encrypt with the PIN, store in the Keychain. -/
def saveMnemonic (s : VaultState) (mnemonic pin : JSString) : VaultState :=
  { s with keychainMnemonic := some (encryptWithPin mnemonic pin) }

/-- loadMnemonic(pin): throw if no Keychain entry, else decrypt it with the
supplied PIN. There is no verification that the PIN is the one used at
save time. -/
def loadMnemonic (s : VaultState) (pin : JSString) : Except VaultError JSString :=
  match s.keychainMnemonic with
  | none => .error .noWalletStored
  | some blob => .ok (decryptWithPin blob pin)

/-- loadMnemonic instrumented with a flag recording whether decryptWithPin
was reached (mirrors loadMnemonic exactly). -/
def loadMnemonicT (s : VaultState) (pin : JSString) :
    Except VaultError JSString × Bool :=
  match s.keychainMnemonic with
  | none => (.error .noWalletStored, false)
  | some blob => (.ok (decryptWithPin blob pin), true)

/-- saveWalletMeta(meta). -/
def saveWalletMeta (s : VaultState) (meta : WalletMeta) : VaultState :=
  { s with walletMeta := some meta }

/-- loadWalletMeta(): the stored metadata, or null. -/
def loadWalletMeta (s : VaultState) : Option WalletMeta :=
  s.walletMeta

/-- deleteWallet(): reset the Keychain entry and remove the metadata entry. -/
def deleteWallet (_s : VaultState) : VaultState :=
  { keychainMnemonic := none, walletMeta := none }

/-! ### Chains (constants/chains.ts) -/

structure Chain where
  id : Nat
  name : String
  symbol : String
  rpcUrl : String
  explorerUrl : String
  iconColor : String
  decimals : Nat
  isTestnet : Option Bool
deriving DecidableEq

inductive ChainKey where
  | ethereum
  | bsc
  | polygon
deriving DecidableEq

/-- The CHAINS record of constants/chains.ts. -/
def CHAINS : ChainKey → Chain
  | .ethereum =>
      { id := 1, name := "Ethereum", symbol := "ETH",
        rpcUrl := "https://ethereum.publicnode.com",
        explorerUrl := "https://etherscan.io", iconColor := "#627EEA",
        decimals := 18, isTestnet := none }
  | .bsc =>
      { id := 56, name := "BNB Smart Chain", symbol := "BNB",
        rpcUrl := "https://bsc-dataseed.binance.org",
        explorerUrl := "https://bscscan.com", iconColor := "#F0B90B",
        decimals := 18, isTestnet := none }
  | .polygon =>
      { id := 137, name := "Polygon", symbol := "MATIC",
        rpcUrl := "https://polygon-rpc.com",
        explorerUrl := "https://polygonscan.com", iconColor := "#8247E5",
        decimals := 18, isTestnet := none }

/-! ### Signers -/

/-- An ethers Wallet bound to a provider: private key, its address, and the
RPC endpoint of the provider it is connected to. -/
structure Signer where
  privateKey : JSString
  address : JSString
  rpcUrl : String

/-- getSigner(chainKey, pin): load and decrypt the mnemonic, derive the HD
node at DERIVATION_PATH, and wrap its private key in a Wallet connected to
the JSON-RPC provider of the chain. -/
def getSigner (E : EthersModel) (s : VaultState) (chainKey : ChainKey)
    (pin : JSString) : Except VaultError Signer :=
  match loadMnemonic s pin with
  | .error e => .error e
  | .ok mnemonic =>
      .ok { privateKey := E.hdPrivateKey DERIVATION_PATH mnemonic,
            address := hdNodeAddress E DERIVATION_PATH mnemonic,
            rpcUrl := (CHAINS chainKey).rpcUrl }

/-! ### JavaScript trim -/

/-- The code points removed by the JavaScript String trim method. -/
def jsWhitespace (c : Nat) : Bool :=
  (9 ≤ c && c ≤ 13) || c = 32 || c = 160 || c = 0x1680 ||
  (0x2000 ≤ c && c ≤ 0x200A) || c = 0x2028 || c = 0x2029 ||
  c = 0x202F || c = 0x205F || c = 0x3000 || c = 0xFEFF

/-- phrase.trim(): surrounding whitespace removed from both ends. -/
def jsTrim (s : JSString) : JSString :=
  ((s.dropWhile jsWhitespace).reverse.dropWhile jsWhitespace).reverse

/-! ### Imports -/

/-- importFromMnemonic(mnemonic): reject when bip39.validateMnemonic fails
on the trimmed phrase, else derive the address of the trimmed phrase.
The bip39 validator is an external collaborator, passed as a parameter. -/
def importFromMnemonic (validate : JSString → Bool) (E : EthersModel)
    (mnemonic : JSString) : Except VaultError JSString :=
  if validate (jsTrim mnemonic) then
    .ok (deriveAddress E (jsTrim mnemonic))
  else
    .error .invalidMnemonic

/-- Modelled from the spec: the validation done by the ethers Wallet
constructor, which is not part of src — a private key must be a
0x-prefixed string of 64 hexadecimal characters. -/
def isValidPrivateKeyHex (hex : JSString) : Bool :=
  decide (hex.length = 66) && decide (hex.take 2 = [48, 120]) &&
  (hex.drop 2).all (fun c =>
    (48 ≤ c && c ≤ 57) || (97 ≤ c && c ≤ 102) || (65 ≤ c && c ≤ 70))

/-- importFromPrivateKey(privateKey): build an ethers Wallet from the
trimmed key and return its address. The VaultState is threaded through
unchanged because the function performs no storage writes. -/
def importFromPrivateKey (E : EthersModel) (s : VaultState) (hex : JSString) :
    VaultState × Except VaultError JSString :=
  (s, if isValidPrivateKeyHex (jsTrim hex) then
        .ok (E.addressOfPrivateKey (jsTrim hex))
      else
        .error .invalidPrivateKey)

/-! ### The unlock screen (UnlockScreen.tsx) -/

/-- The alert shown after a failed attempt: either the remaining-attempts
message, or the too-many-attempts message once 5 failures are reached. -/
inductive UnlockAlert where
  | wrongPin (remaining : Nat)
  | tooManyAttempts
deriving DecidableEq

/-- The component state of UnlockScreen that tryUnlock touches. -/
structure UnlockUiState where
  attempts : Nat
  unlocked : Bool
  pinEntry : JSString
  alert : Option UnlockAlert
deriving DecidableEq

/-- tryUnlock(enteredPin): call loadMnemonic with the entered PIN; on
success set the store unlocked flag, on failure increment the attempt
counter, pick the alert, and clear the PIN entry. loadMnemonic is called
unconditionally: nothing inspects the attempt counter beforehand. -/
def tryUnlock (vault : VaultState) (ui : UnlockUiState) (enteredPin : JSString) :
    UnlockUiState :=
  match loadMnemonic vault enteredPin with
  | .ok _ => { ui with unlocked := true }
  | .error _ =>
      { ui with
          attempts := ui.attempts + 1,
          alert := some (if 5 ≤ ui.attempts + 1 then .tooManyAttempts
                         else .wrongPin (5 - (ui.attempts + 1))),
          pinEntry := [] }

/-- tryUnlock instrumented with a flag recording whether decryption was
attempted during the call. -/
def tryUnlockT (vault : VaultState) (ui : UnlockUiState) (enteredPin : JSString) :
    UnlockUiState × Bool :=
  (tryUnlock vault ui enteredPin, (loadMnemonicT vault enteredPin).2)

end CryptoVault

/-! ### BIP-39 generation and validation

Modelled from the spec: the bip39 library used by generateWallet and
importFromMnemonic is not part of src. generateMnemonic(128) turns 128
bits of entropy plus a 4-bit checksum of that entropy into 12 groups of
11 bits, each group indexing the 2048-word list; validateMnemonic checks
word-list membership (every index below 2048) and the checksum. A
mnemonic is represented by its list of word-list indices (the word list
itself is a fixed bijection between indices and words), and the checksum
function (the first 4 bits of the SHA-256 of the entropy) is an opaque
parameter. -/

namespace Bip39

/-- Value of a big-endian bit string. -/
def bitsToNat : List Bool → Nat
  | [] => 0
  | b :: bs => (if b then 1 else 0) * 2 ^ bs.length + bitsToNat bs

/-- Big-endian bits of a number, at a given width. -/
def natToBits : Nat → Nat → List Bool
  | 0, _ => []
  | w + 1, n => (decide (n / 2 ^ w = 1)) :: natToBits w (n % 2 ^ w)

/-- Split a bit string into words of 11 bits each. -/
def bitsToWords : Nat → List Bool → List Nat
  | 0, _ => []
  | k + 1, bs => bitsToNat (bs.take 11) :: bitsToWords k (bs.drop 11)

/-- Modelled from the spec: bip39.generateMnemonic(128) — append the
4-bit checksum to the 128 entropy bits and cut the result into 12
word indices of 11 bits each. -/
def generateMnemonic (checksum : List Bool → List Bool) (entropy : List Bool) :
    List Nat :=
  bitsToWords 12 (entropy ++ checksum entropy)

/-- Modelled from the spec: bip39.validateMnemonic — 12 words, each a
valid word-list index, and the trailing 4 bits of the recomposed bit
string equal the checksum of the leading 128 bits. -/
def validateMnemonic (checksum : List Bool → List Bool) (words : List Nat) :
    Bool :=
  decide (words.length = 12) && words.all (fun w => decide (w < 2048)) &&
  (let bits := (words.map (natToBits 11)).flatten
   decide (bits.drop 128 = checksum (bits.take 128)))

/-- generateWallet(): generate a mnemonic from fresh entropy and pair it
with its derived address (the derivation is an opaque parameter, as the
word-index mnemonic is rendered to a phrase by the fixed word list). -/
def generateWallet (checksum : List Bool → List Bool)
    (derive : List Nat → CryptoVault.JSString) (entropy : List Bool) :
    List Nat × CryptoVault.JSString :=
  (generateMnemonic checksum entropy, derive (generateMnemonic checksum entropy))

end Bip39

/-! ## Properties of the base64 codec and the XOR cipher -/

namespace CryptoVault

theorem b64Char_ne_pad (n : Nat) : b64Char n ≠ 61 := by
  unfold b64Char
  repeat' split
  all_goals omega

theorem b64Val_b64Char (n : Nat) (h : n < 64) : b64Val (b64Char n) = n := by
  unfold b64Char b64Val
  repeat' split
  all_goals omega

theorem b64_decode_encode : ∀ bs : List Nat, (∀ x ∈ bs, x < 256) →
    b64Decode (b64Encode bs) = bs
  | [], _ => rfl
  | [a], h => by
      have ha : a < 256 := h a (by simp)
      have h1 : a / 4 < 64 := by omega
      have h2 : (a % 4) * 16 < 64 := by omega
      simp [b64Encode, b64Decode, b64Val_b64Char _ h1, b64Val_b64Char _ h2]
      omega
  | [a, b], h => by
      have ha : a < 256 := h a (by simp)
      have hb : b < 256 := h b (by simp)
      have h1 : a / 4 < 64 := by omega
      have h2 : (a % 4) * 16 + b / 16 < 64 := by omega
      have h3 : (b % 16) * 4 < 64 := by omega
      simp [b64Encode, b64Decode, b64Char_ne_pad,
        b64Val_b64Char _ h1, b64Val_b64Char _ h2, b64Val_b64Char _ h3]
      omega
  | a :: b :: c :: rest, h => by
      have ha : a < 256 := h a (by simp)
      have hb : b < 256 := h b (by simp)
      have hc : c < 256 := h c (by simp)
      have ih := b64_decode_encode rest (fun x hx => h x (by simp [hx]))
      have h1 : a / 4 < 64 := by omega
      have h2 : (a % 4) * 16 + b / 16 < 64 := by omega
      have h3 : (b % 16) * 4 + c / 64 < 64 := by omega
      have h4 : c % 64 < 64 := by omega
      simp [b64Encode, b64Decode, b64Char_ne_pad, ih,
        b64Val_b64Char _ h1, b64Val_b64Char _ h2, b64Val_b64Char _ h3, b64Val_b64Char _ h4]
      omega

theorem strRepeat_length (s : JSString) : ∀ k, (strRepeat s k).length = k * s.length
  | 0 => by simp [strRepeat]
  | k + 1 => by
      simp [strRepeat, strRepeat_length s k]
      ring

theorem mem_strRepeat (s : JSString) : ∀ k, ∀ c ∈ strRepeat s k, c ∈ s
  | 0, c, hc => by simp [strRepeat] at hc
  | k + 1, c, hc => by
      simp [strRepeat] at hc
      rcases hc with hc | hc
      · exact hc
      · exact mem_strRepeat s k c hc

theorem repeatKey_length (pin : JSString) (hp : pin ≠ []) (n : Nat) :
    (repeatKey pin n).length = n := by
  have hl : 0 < pin.length := List.length_pos.mpr hp
  have hdm := Nat.div_add_mod (n + pin.length - 1) pin.length
  have hmod : (n + pin.length - 1) % pin.length < pin.length := Nat.mod_lt _ hl
  have hcomm : pin.length * ((n + pin.length - 1) / pin.length) =
      ((n + pin.length - 1) / pin.length) * pin.length := Nat.mul_comm _ _
  simp [repeatKey, strRepeat_length]
  omega

theorem mem_repeatKey (pin : JSString) (n : Nat) : ∀ c ∈ repeatKey pin n, c ∈ pin := by
  intro c hc
  have hmem : c ∈ strRepeat pin ((n + pin.length - 1) / pin.length) :=
    List.take_subset _ _ hc
  exact mem_strRepeat pin _ c hmem

theorem xor_lt_256 {x k : Nat} (hx : x < 256) (hk : k < 256) : x ^^^ k < 256 := by
  have h8x : x < 2 ^ 8 := by omega
  have h8k : k < 2 ^ 8 := by omega
  have h : x ^^^ k < 2 ^ 8 := @Nat.bitwise_lt bne x k 8 h8x h8k
  omega

theorem zip_xor_roundtrip : ∀ xs ks : List Nat, xs.length = ks.length →
    (∀ x ∈ xs, x < 256) → (∀ k ∈ ks, k < 256) →
    List.zipWith (fun t k => t ^^^ k)
      ((List.zipWith (fun t k => t ^^^ k) xs ks).map (fun c => c % 256)) ks = xs
  | [], [], _, _, _ => rfl
  | [], k :: ks, h, _, _ => by simp at h
  | x :: xs, [], h, _, _ => by simp at h
  | x :: xs, k :: ks, h, hx, hk => by
      have hx0 : x < 256 := hx x (by simp)
      have hk0 : k < 256 := hk k (by simp)
      have hxk : x ^^^ k < 256 := xor_lt_256 hx0 hk0
      have ih := zip_xor_roundtrip xs ks (by simpa using h)
        (fun a ha => hx a (by simp [ha])) (fun a ha => hk a (by simp [ha]))
      simp [List.zipWith, ih, Nat.mod_eq_of_lt hxk, Nat.xor_cancel_right]

/-! ## Properties of trim -/

theorem jsTrim_append_left (ws x : JSString) (h : ∀ c ∈ ws, jsWhitespace c = true) :
    jsTrim (ws ++ x) = jsTrim x := by
  unfold jsTrim
  rw [List.dropWhile_append]
  have hnil : ws.dropWhile jsWhitespace = [] := List.dropWhile_eq_nil_iff.mpr h
  simp [hnil]

theorem jsTrim_append_right (x ws : JSString) (h : ∀ c ∈ ws, jsWhitespace c = true) :
    jsTrim (x ++ ws) = jsTrim x := by
  unfold jsTrim
  rw [List.dropWhile_append]
  have hwnil : ws.dropWhile jsWhitespace = [] := List.dropWhile_eq_nil_iff.mpr h
  have hrev : ws.reverse.dropWhile jsWhitespace = [] :=
    List.dropWhile_eq_nil_iff.mpr (fun c hc => h c (List.mem_reverse.mp hc))
  by_cases hx : (x.dropWhile jsWhitespace).isEmpty
  · have hxnil : x.dropWhile jsWhitespace = [] := List.isEmpty_iff.mp hx
    simp [hx, hwnil, hxnil]
  · simp only [hx, Bool.false_eq_true, if_false, List.reverse_append]
    rw [List.dropWhile_append, hrev]
    simp

theorem jsTrim_surround (ws1 x ws2 : JSString)
    (h1 : ∀ c ∈ ws1, jsWhitespace c = true) (h2 : ∀ c ∈ ws2, jsWhitespace c = true) :
    jsTrim (ws1 ++ x ++ ws2) = jsTrim x := by
  rw [List.append_assoc, jsTrim_append_left _ _ h1, jsTrim_append_right _ _ h2]

end CryptoVault

/-! ## Properties of the BIP-39 model -/

namespace Bip39

theorem bitsToNat_lt : ∀ bs : List Bool, bitsToNat bs < 2 ^ bs.length
  | [] => by simp [bitsToNat]
  | b :: bs => by
      have ih := bitsToNat_lt bs
      simp only [bitsToNat, List.length_cons, pow_succ]
      cases b <;> simp <;> omega

theorem natToBits_length : ∀ w n, (natToBits w n).length = w
  | 0, _ => rfl
  | w + 1, n => by simp [natToBits, natToBits_length w]

theorem natToBits_bitsToNat : ∀ bs : List Bool, natToBits bs.length (bitsToNat bs) = bs
  | [] => rfl
  | b :: bs => by
      have ih := natToBits_bitsToNat bs
      have hlt := bitsToNat_lt bs
      simp only [bitsToNat, List.length_cons, natToBits, List.cons.injEq]
      cases b
      · constructor
        · simp [Nat.div_eq_of_lt hlt]
        · simp [Nat.mod_eq_of_lt hlt, ih]
      · constructor
        · simp
          exact Nat.div_eq_of_lt hlt
        · simp
          rw [Nat.mod_eq_of_lt hlt]
          exact ih

theorem bitsToWords_length : ∀ k bs, (bitsToWords k bs).length = k
  | 0, _ => rfl
  | k + 1, bs => by simp [bitsToWords, bitsToWords_length k]

theorem bitsToWords_lt : ∀ k bs, ∀ w ∈ bitsToWords k bs, w < 2048
  | 0, bs, w, hw => by simp [bitsToWords] at hw
  | k + 1, bs, w, hw => by
      simp only [bitsToWords, List.mem_cons] at hw
      rcases hw with hw | hw
      · subst hw
        have h1 := bitsToNat_lt (bs.take 11)
        have h2 : (2 : Nat) ^ (bs.take 11).length ≤ 2 ^ 11 := by
          apply Nat.pow_le_pow_right (by omega)
          simp
        omega
      · exact bitsToWords_lt k (bs.drop 11) w hw

theorem flatten_bitsToWords : ∀ k bs, bs.length = 11 * k →
    ((bitsToWords k bs).map (natToBits 11)).flatten = bs
  | 0, bs, h => by
      simp at h
      simp [bitsToWords, h]
  | k + 1, bs, h => by
      have ht : (bs.take 11).length = 11 := by simp; omega
      have hd : (bs.drop 11).length = 11 * k := by simp; omega
      have ih := flatten_bitsToWords k (bs.drop 11) hd
      have hw : natToBits 11 (bitsToNat (bs.take 11)) = bs.take 11 := by
        have h0 := natToBits_bitsToNat (bs.take 11)
        rw [ht] at h0
        exact h0
      simp [bitsToWords, hw, ih]

theorem validate_generate (checksum : List Bool → List Bool) (entropy : List Bool)
    (h1 : entropy.length = 128) (h2 : (checksum entropy).length = 4) :
    (generateMnemonic checksum entropy).length = 12 ∧
    validateMnemonic checksum (generateMnemonic checksum entropy) = true := by
  have hlen : (entropy ++ checksum entropy).length = 11 * 12 := by simp [h1, h2]
  have hflat := flatten_bitsToWords 12 (entropy ++ checksum entropy) hlen
  constructor
  · exact bitsToWords_length 12 _
  · simp only [validateMnemonic, generateMnemonic, hflat, Bool.and_eq_true,
      List.all_eq_true, decide_eq_true_eq]
    refine ⟨⟨bitsToWords_length 12 _, ?_⟩, ?_⟩
    · intro w hw
      exact bitsToWords_lt 12 _ w hw
    · have htake : (entropy ++ checksum entropy).take 128 = entropy := by
        rw [← h1]
        exact List.take_left _ _
      have hdrop : (entropy ++ checksum entropy).drop 128 = checksum entropy := by
        rw [← h1]
        exact List.drop_left _ _
      rw [htake, hdrop]

end Bip39

/-! ## The claims -/

namespace CryptoVault

/-- Claim C1: the spec requires decryption under a key derived from a wrong
PIN to fail with a distinguishable AuthenticationFailed error. The code has
no authentication: storing the mnemonic "ab" under PIN "1" and loading it
with PIN "2" returns the silently corrupted plaintext "ba" instead of any
error. -/
theorem wrong_pin_returns_corrupted_plaintext :
    loadMnemonic (saveMnemonic ⟨none, none⟩ [97, 98] [49]) [50] = .ok [98, 97] ∧
    [98, 97] ≠ [97, 98] := by
  constructor
  · rfl
  · decide

/-- Claim C2: the spec requires that after 5 consecutive failed attempts any
further submission is rejected with a lockout error without attempting
decryption. In the code there is no lockout state: with the attempt counter
already at 5 and a wallet stored (saved here with PIN "123456"), submitting
the PIN "000000" still reaches decryption and even sets the unlocked flag. -/
theorem sixth_attempt_still_attempts_decryption :
    (tryUnlockT (saveMnemonic ⟨none, none⟩ [97, 98] [49, 50, 51, 52, 53, 54])
      { attempts := 5, unlocked := false, pinEntry := [],
        alert := some .tooManyAttempts }
      [48, 48, 48, 48, 48, 48]).2 = true ∧
    (tryUnlockT (saveMnemonic ⟨none, none⟩ [97, 98] [49, 50, 51, 52, 53, 54])
      { attempts := 5, unlocked := false, pinEntry := [],
        alert := some .tooManyAttempts }
      [48, 48, 48, 48, 48, 48]).1.unlocked = true := by
  constructor
  · rfl
  · rfl

/-- Claim C3: whenever an encrypted mnemonic entry is stored, loadMnemonic
returns a string for every nonempty PIN; it throws exactly when no entry is
stored, and whether it succeeds does not depend on the supplied PIN, so a
successful return does not imply the PIN is correct. -/
theorem loadMnemonic_never_checks_pin (s : VaultState) (c1 c2 : Nat)
    (r1 r2 : List Nat) :
    (loadMnemonic s (c1 :: r1) = .error .noWalletStored ↔
      s.keychainMnemonic = none) ∧
    ((loadMnemonic s (c1 :: r1)).isOk = true ↔ s.keychainMnemonic.isSome = true) ∧
    (loadMnemonic s (c1 :: r1)).isOk = (loadMnemonic s (c2 :: r2)).isOk := by
  cases h : s.keychainMnemonic <;>
    simp [loadMnemonic, Except.isOk, Except.toBool, h]

/-- Claim C4, counterexample: the round trip fails for the one-character
PIN with code point 256 (the claim quantifies over every nonempty PIN but
the binary Buffer encoding truncates key code units to their low byte only
on the encryption side). -/
theorem roundtrip_fails_for_wide_pin :
    decryptWithPin (encryptWithPin [97] [256]) [256] ≠ [97] := by decide

/-- Claim C4, amended: for every mnemonic and every nonempty PIN whose
characters all have code points below 256, decrypting with the same PIN
returns exactly the original mnemonic. -/
theorem decrypt_encrypt_same_pin (text pin : JSString) (hp : pin ≠ [])
    (ht : ∀ c ∈ text, c < 256) (hk : ∀ c ∈ pin, c < 256) :
    decryptWithPin (encryptWithPin text pin) pin = text := by
  have hkeylen : (repeatKey pin text.length).length = text.length :=
    repeatKey_length pin hp text.length
  have hkeymem : ∀ c ∈ repeatKey pin text.length, c < 256 :=
    fun c hc => hk c (mem_repeatKey pin text.length c hc)
  have hbytes : ∀ x ∈ (List.zipWith (fun t k => t ^^^ k) text
      (repeatKey pin text.length)).map (fun c => c % 256), x < 256 := by
    intro x hx
    simp at hx
    obtain ⟨a, _, rfl⟩ := hx
    exact Nat.mod_lt _ (by omega)
  simp only [decryptWithPin, encryptWithPin]
  rw [b64_decode_encode _ hbytes]
  have hlen2 : ((List.zipWith (fun t k => t ^^^ k) text
      (repeatKey pin text.length)).map (fun c => c % 256)).length = text.length := by
    simp [hkeylen]
  rw [hlen2]
  exact zip_xor_roundtrip text (repeatKey pin text.length) hkeylen.symm ht hkeymem

/-- Claim C4, witness: the round trip at the mnemonic "ab" and PIN "1". -/
theorem decrypt_encrypt_same_pin_witness :
    ([49] : JSString) ≠ [] ∧ (∀ c ∈ ([97, 98] : JSString), c < 256) ∧
    (∀ c ∈ ([49] : JSString), c < 256) ∧
    decryptWithPin (encryptWithPin [97, 98] [49]) [49] = [97, 98] :=
  ⟨by decide, by decide, by decide,
   decrypt_encrypt_same_pin [97, 98] [49] (by decide) (by decide) (by decide)⟩

/-- Claim C5: the spec requires a fresh random nonce per encryption call so
that equal plaintexts yield different blobs. encryptWithPin takes no
randomness at all: the blob for the plaintext "ab" under PIN "1" is the
fixed string "UFM=", so every call on the same inputs returns this same
blob. -/
theorem encrypt_has_no_nonce :
    encryptWithPin [97, 98] [49] = [85, 70, 77, 61] := by rfl

/-- Claim C6: after deleteWallet, loadWalletMeta returns null, loadMnemonic
reports that no wallet is stored without reaching decryption, and an unlock
attempt with any PIN cannot set the unlocked flag. -/
theorem wipe_then_absent (s : VaultState) (ui : UnlockUiState) (pin : JSString) :
    loadWalletMeta (deleteWallet s) = none ∧
    loadMnemonicT (deleteWallet s) pin = (.error .noWalletStored, false) ∧
    (tryUnlock (deleteWallet s) ui pin).unlocked = ui.unlocked := by
  refine ⟨rfl, rfl, ?_⟩
  simp [tryUnlock, loadMnemonic, deleteWallet]

/-- Claim C7: importFromMnemonic is invariant under surrounding whitespace,
fails with InvalidMnemonic exactly when the bip39 validator rejects the
trimmed phrase, and otherwise returns the address derived from the trimmed
phrase. -/
theorem importFromMnemonic_trims_and_validates (validate : JSString → Bool)
    (E : EthersModel) (m ws1 ws2 : JSString)
    (h1 : ∀ c ∈ ws1, jsWhitespace c = true)
    (h2 : ∀ c ∈ ws2, jsWhitespace c = true) :
    importFromMnemonic validate E (ws1 ++ m ++ ws2) =
      importFromMnemonic validate E m ∧
    (importFromMnemonic validate E m = .error .invalidMnemonic ↔
      validate (jsTrim m) = false) ∧
    (importFromMnemonic validate E m).toOption =
      (if validate (jsTrim m) then some (deriveAddress E (jsTrim m)) else none) := by
  refine ⟨?_, ?_, ?_⟩
  · unfold importFromMnemonic
    rw [jsTrim_surround ws1 m ws2 h1 h2]
  · unfold importFromMnemonic
    cases h : validate (jsTrim m) <;> simp [h]
  · unfold importFromMnemonic
    cases h : validate (jsTrim m) <;> simp [h, Except.toOption]

/-- Claim C7, witness: a one-word phrase surrounded by a space and a tab. -/
theorem importFromMnemonic_trims_and_validates_witness :
    (∀ c ∈ ([32] : JSString), jsWhitespace c = true) ∧
    (∀ c ∈ ([9] : JSString), jsWhitespace c = true) ∧
    importFromMnemonic (fun s => decide (s = [97]))
        ⟨fun _ _ => [0], fun k => k⟩ ([32] ++ [97] ++ [9]) =
      importFromMnemonic (fun s => decide (s = [97]))
        ⟨fun _ _ => [0], fun k => k⟩ [97] :=
  ⟨by decide, by decide,
   (importFromMnemonic_trims_and_validates (fun s => decide (s = [97]))
      ⟨fun _ _ => [0], fun k => k⟩ [97] [32] [9] (by decide) (by decide)).1⟩

/-- Claim C8: importFromPrivateKey never writes any state for any input;
for every well-formed key (0x-prefixed, 64 hex characters, after trimming)
it returns the corresponding address, for every malformed input it returns
InvalidPrivateKey, and in particular the malformed input 0xINVALIDHEX is
rejected with InvalidPrivateKey and leaves the state untouched. -/
theorem importFromPrivateKey_validates (E : EthersModel) (s : VaultState)
    (hex : JSString) :
    importFromPrivateKey E s [48, 120, 73, 78, 86, 65, 76, 73, 68, 72, 69, 88] =
      (s, .error .invalidPrivateKey) ∧
    (importFromPrivateKey E s hex).1 = s ∧
    (isValidPrivateKeyHex (jsTrim hex) = true →
      importFromPrivateKey E s hex = (s, .ok (E.addressOfPrivateKey (jsTrim hex)))) ∧
    (isValidPrivateKeyHex (jsTrim hex) = false →
      importFromPrivateKey E s hex = (s, .error .invalidPrivateKey)) := by
  have hbad : isValidPrivateKeyHex
      (jsTrim [48, 120, 73, 78, 86, 65, 76, 73, 68, 72, 69, 88]) = false := by decide
  refine ⟨?_, rfl, ?_, ?_⟩
  · unfold importFromPrivateKey
    rw [hbad]
    simp
  · intro h
    unfold importFromPrivateKey
    rw [h]
    simp
  · intro h
    unfold importFromPrivateKey
    rw [h]
    simp

/-- Claim C8, witness: the well-formed key 0x followed by 64 times the
letter a is accepted with its address, and the malformed 0xINVALIDHEX is
rejected, both without touching the state. -/
theorem importFromPrivateKey_validates_witness :
    isValidPrivateKeyHex (jsTrim ([48, 120] ++ List.replicate 64 97)) = true ∧
    importFromPrivateKey ⟨fun _ _ => [0], fun k => k⟩ ⟨none, none⟩
        ([48, 120] ++ List.replicate 64 97) =
      (⟨none, none⟩, .ok (jsTrim ([48, 120] ++ List.replicate 64 97))) ∧
    isValidPrivateKeyHex
      (jsTrim [48, 120, 73, 78, 86, 65, 76, 73, 68, 72, 69, 88]) = false ∧
    importFromPrivateKey ⟨fun _ _ => [0], fun k => k⟩ ⟨none, none⟩
        [48, 120, 73, 78, 86, 65, 76, 73, 68, 72, 69, 88] =
      (⟨none, none⟩, .error .invalidPrivateKey) :=
  ⟨by decide,
   (importFromPrivateKey_validates ⟨fun _ _ => [0], fun k => k⟩ ⟨none, none⟩
      ([48, 120] ++ List.replicate 64 97)).2.2.1 (by decide),
   by decide,
   (importFromPrivateKey_validates ⟨fun _ _ => [0], fun k => k⟩ ⟨none, none⟩
      [48, 120, 73, 78, 86, 65, 76, 73, 68, 72, 69, 88]).2.2.2 (by decide)⟩

/-- Claim C9: the signer returned by getSigner carries the private key of
the HD node at the fixed path DERIVATION_PATH and the address derived from
the loaded mnemonic; the address does not depend on the chain key. -/
theorem getSigner_one_address_for_all_chains (E : EthersModel) (s : VaultState)
    (pin : JSString) (ck ck1 ck2 : ChainKey) :
    (getSigner E s ck pin).map Signer.address =
      (loadMnemonic s pin).map (fun m => deriveAddress E m) ∧
    (getSigner E s ck pin).map Signer.privateKey =
      (loadMnemonic s pin).map (fun m => E.hdPrivateKey DERIVATION_PATH m) ∧
    (getSigner E s ck1 pin).map Signer.address =
      (getSigner E s ck2 pin).map Signer.address := by
  cases h : loadMnemonic s pin <;>
    simp [getSigner, h, deriveAddress, Except.map]

end CryptoVault

namespace Bip39

/-- Claim C10: for any 128-bit entropy and any 4-bit checksum function, the
mnemonic part of generateWallet has 12 words and validateMnemonic accepts
it. -/
theorem generateWallet_validates (checksum : List Bool → List Bool)
    (derive : List Nat → CryptoVault.JSString) (entropy : List Bool)
    (h1 : entropy.length = 128) (h2 : (checksum entropy).length = 4) :
    (generateWallet checksum derive entropy).1.length = 12 ∧
    validateMnemonic checksum (generateWallet checksum derive entropy).1 = true :=
  validate_generate checksum entropy h1 h2

/-- Claim C10, witness: all-zero entropy with the all-zero checksum
function. -/
theorem generateWallet_validates_witness :
    (List.replicate 128 false).length = 128 ∧
    ((fun _ : List Bool => List.replicate 4 false)
      (List.replicate 128 false)).length = 4 ∧
    (generateWallet (fun _ => List.replicate 4 false) (fun _ => [])
      (List.replicate 128 false)).1.length = 12 ∧
    validateMnemonic (fun _ => List.replicate 4 false)
      (generateWallet (fun _ => List.replicate 4 false) (fun _ => [])
        (List.replicate 128 false)).1 = true :=
  ⟨by simp, by simp,
   (generateWallet_validates (fun _ => List.replicate 4 false) (fun _ => [])
      (List.replicate 128 false) (by simp) (by simp)).1,
   (generateWallet_validates (fun _ => List.replicate 4 false) (fun _ => [])
      (List.replicate 128 false) (by simp) (by simp)).2⟩

end Bip39
